import Mathlib

/-!
# A shallow embedding of the Clash-Royale bot (`env.py`, `dqn_agent.py`, `Actions.py`)

Numbers that the Python code manipulates as `int`/`float` are modelled as
`ℤ`/`ℚ`.  Lists model Python lists, `Option` models `None`-able values, and
the mutable attributes of `ClashRoyaleEnv` / `DQNAgent` are threaded through
explicit state records.  Screen-scraping calls (`pyautogui`, Roboflow) are
modelled by passing their observed results in as data.
-/

namespace ClashBot

/-- Python's `int(x)` on a float: truncation toward zero. -/
def truncInt (q : ℚ) : ℤ := if 0 ≤ q then ⌊q⌋ else ⌈q⌉

/-- Python slice `l[0::2]`: the elements at even indices. -/
def everyOther {α : Type} : List α → List α
  | [] => []
  | [a] => [a]
  | a :: _ :: t => a :: everyOther t

/-- Python slice `l[1::2]`: the elements at odd indices. -/
def oddSlots {α : Type} (l : List α) : List α := everyOther (l.drop 1)

/-- The consecutive pairs `(l[0], l[1]), (l[2], l[3]), …` of a list
(the loop `for i in range(lo, hi, 2): (state[i], state[i+1])`). -/
def pairsOf : List ℚ → List (ℚ × ℚ)
  | x :: y :: t => (x, y) :: pairsOf t
  | _ => []

/-- Flattening a list of coordinate pairs
(`[coord for pos in positions for coord in pos]` in `_get_state`). -/
def flattenPairs : List (ℚ × ℚ) → List ℚ
  | [] => []
  | (x, y) :: t => x :: y :: flattenPairs t

/-- Model of `MAX_ALLIES` in `env.py`. -/
def MAX_ALLIES : ℕ := 10

/-- Model of `MAX_ENEMIES` in `env.py`. -/
def MAX_ENEMIES : ℕ := 10

/-- Model of `SPELL_CARDS` in `env.py`. -/
def SPELL_CARDS : List String :=
  ["Fireball", "Zap", "Arrows", "Tornado", "Rocket", "Lightning", "Freeze"]

/-- The screen-region constants of `Actions.__init__` (capture area origin and
size); `Actions.py` provides a macOS preset and a Windows preset. -/
structure ScreenCfg where
  TOP_LEFT_X : ℤ
  TOP_LEFT_Y : ℤ
  WIDTH : ℤ
  HEIGHT : ℤ

/-- The macOS ("Darwin") preset of `Actions.__init__`:
origin (1013, 120), bottom right (1480, 683). -/
def macCfg : ScreenCfg := ⟨1013, 120, 1480 - 1013, 683 - 120⟩

/-- The Windows preset of `Actions.__init__`:
origin (1376, 120), bottom right (1838, 769). -/
def winCfg : ScreenCfg := ⟨1376, 120, 1838 - 1376, 769 - 120⟩

/-! ## `_get_state` -/

/-- One Roboflow detection: the `"class"`, `"x"` and `"y"` fields of a
prediction dictionary (the only fields `_get_state` reads). -/
structure Prediction where
  cls : String
  x : ℚ
  y : ℚ

/-- Model of `TOWER_CLASSES` in `_get_state`. -/
def TOWER_CLASSES : List String :=
  ["ally king tower", "ally princess tower", "enemy king tower", "enemy princess tower"]

/-- Model of `normalize_class` in `_get_state` (on an actual string). -/
def normalizeClass (s : String) : String := s.trim.toLower

/-- The `allies` list comprehension of `_get_state`: detections whose
normalised class is not a tower class and starts with `"ally"`. -/
def allyUnits (preds : List Prediction) : List (ℚ × ℚ) :=
  (preds.filter fun p =>
    normalizeClass p.cls ∉ TOWER_CLASSES ∧ (normalizeClass p.cls).startsWith "ally").map
    fun p => (p.x, p.y)

/-- The `enemies` list comprehension of `_get_state`. -/
def enemyUnits (preds : List Prediction) : List (ℚ × ℚ) :=
  (preds.filter fun p =>
    normalizeClass p.cls ∉ TOWER_CLASSES ∧ (normalizeClass p.cls).startsWith "enemy").map
    fun p => (p.x, p.y)

/-- Model of `normalize` in `_get_state`: divide by the capture-area width/height. -/
def normalizeUnits (cfg : ScreenCfg) (units : List (ℚ × ℚ)) : List (ℚ × ℚ) :=
  units.map fun u => (u.1 / (cfg.WIDTH : ℚ), u.2 / (cfg.HEIGHT : ℚ))

/-- Model of `pad_units` in `_get_state`: normalise, pad with `(0.0, 0.0)` up to
`max_units`, then truncate to `max_units`. -/
def padUnits (cfg : ScreenCfg) (units : List (ℚ × ℚ)) (maxUnits : ℕ) : List (ℚ × ℚ) :=
  let u := normalizeUnits cfg units
  let u2 := if u.length < maxUnits then u ++ List.replicate (maxUnits - u.length) (0, 0) else u
  u2.take maxUnits

/-- Model of `ClashRoyaleEnv._get_state`, as a function of the observed elixir count and
the troop detections of the current frame: `[elixir / 10.0] + ally_flat +
enemy_flat`. -/
def getState (cfg : ScreenCfg) (elixir : ℚ) (preds : List Prediction) : List ℚ :=
  elixir / 10 ::
    (flattenPairs (padUnits cfg (allyUnits preds) MAX_ALLIES) ++
      flattenPairs (padUnits cfg (enemyUnits preds) MAX_ENEMIES))

/-! ## `_compute_reward` -/

/-- Model of `state[0] * 10` in `_compute_reward` (the de-normalised elixir). -/
def stateElixir (s : List ℚ) : ℚ := s.getD 0 0 * 10

/-- Model of `state[1 + 2 * MAX_ALLIES:]`: the flattened enemy coordinates. -/
def enemyCoords (s : List ℚ) : List ℚ := s.drop (1 + 2 * MAX_ALLIES)

/-- Model of `enemy_positions[1::2]`: the enemy y-coordinates. -/
def enemyYs (s : List ℚ) : List ℚ := oddSlots (enemyCoords s)

/-- Model of `enemy_presence = sum(enemy_positions[1::2])`. -/
def enemyPresence (s : List ℚ) : ℚ := (enemyYs s).sum

/-- Model of `close_enemies = sum(1 for y in enemy_y_positions if y > 500)`. -/
def closeEnemyCount (s : List ℚ) : ℕ := (enemyYs s).countP fun y => decide (500 < y)

/-- Model of `ClashRoyaleEnv._compute_reward`, as a function of the state vector and of
the shaping memory `prev_elixir` / `prev_enemy_presence` read during the call
(`state is None` never happens: `_get_state` always returns an array). -/
def computeReward (s : List ℚ) (prevElixir prevEnemyPresence : Option ℚ) : ℚ :=
  let elixir := stateElixir s
  let ep := enemyPresence s
  let r0 := -ep * (1 / 2)
  let r1 := r0 +
    (match prevElixir with
     | some pe => if 0 < ep ∧ 0 < pe - elixir then 5 else 0
     | none => 0)
  let r2 := r1 +
    (match prevEnemyPresence with
     | some pp => if 0 < pp - ep then 10 * (pp - ep) else 0
     | none => 0)
  let r3 := r2 +
    (match prevElixir, prevEnemyPresence with
     | some pe, some pp =>
        if 0 < pe - elixir ∧ 0 < pp - ep then 3 * min (pe - elixir) (pp - ep) else 0
     | _, _ => 0)
  let r4 := r3 - (if 0 < ep then 2 * (closeEnemyCount s : ℚ) else 0)
  r4

/-- The updates `self.prev_elixir = elixir; self.prev_enemy_presence =
enemy_presence` performed at the end of `_compute_reward`. -/
def rewardMemoryAfter (s : List ℚ) : Option ℚ × Option ℚ :=
  (some (stateElixir s), some (enemyPresence s))

/-! ## `get_available_actions` -/

/-- The triple list comprehension of `get_available_actions`: all
`[card, x / (grid_width - 1), y / (grid_height - 1)]` triples in card-major
order (card outermost, then x, then y). -/
def mainActions (gw gh : ℕ) : List (ℤ × ℚ × ℚ) :=
  (List.range 4).flatMap fun (card : ℕ) =>
    (List.range gw).flatMap fun (x : ℕ) =>
      (List.range gh).map fun (y : ℕ) =>
        ((card : ℤ), (x : ℚ) / ((gw : ℚ) - 1), (y : ℚ) / ((gh : ℚ) - 1))

/-- Model of `ClashRoyaleEnv.get_available_actions`: the card-major grid
enumeration followed by the appended no-op action `[-1, 0, 0]`. -/
def availableActions (gw gh : ℕ) : List (ℤ × ℚ × ℚ) :=
  mainActions gw gh ++ [(-1, 0, 0)]

/-- The index of the no-op action (the last index of `available_actions`). -/
def noopIndex (gw gh : ℕ) : ℕ := 4 * gw * gh

/-! ## `step` -/

/-- The result of `_detect_screen_state`: `"home_screen"`, `"post_match"`,
`"in_battle"` or `"unknown"`. -/
inductive ScreenState where
  | homeScreen
  | postMatch
  | inBattleScr
  | unknownScreen
deriving DecidableEq

/-- The string `Actions.detect_game_end` stores in `game_over_flag`. -/
inductive GameResult where
  | victory
  | defeat
deriving DecidableEq

/-- Everything `step` observes from the outside world during one call: the
detected screen state, the popup detections, the watcher flag, the detected
hand cards, the state vector produced by `_get_state` (the screen is assumed
not to change between the `_get_state` calls of a single `step`), and the
enemy princess-tower count from `_count_enemy_princess_towers`. -/
structure Obs where
  screen : ScreenState
  trophyRoadVisible : Bool
  matchOverVisible : Bool
  gameOver : Option GameResult
  cards : List String
  state : List ℚ
  enemyPrincessTowers : ℕ

/-- The mutable attributes of `ClashRoyaleEnv` read or written by `step`. -/
structure EnvMut where
  matchOverDetected : Bool
  trophyRoadDetected : Bool
  inBattle : Bool
  onHomeScreen : Bool
  prevElixir : Option ℚ
  prevEnemyPresence : Option ℚ
  prevEnemyPrincessTowers : Option ℕ
  currentCards : List String
deriving DecidableEq

/-- What a call to `step` produces: the returned triple
`(next_state, reward, done)`, together with the `Actions.card_play` invocation
it performed (card name and screen click coordinates, `none` if no card was
played) and the updated environment attributes. -/
structure StepResult where
  nextState : List ℚ
  reward : ℚ
  done : Bool
  played : Option (String × ℤ × ℤ)
  env : EnvMut
deriving DecidableEq

/-- The enemy pixel positions computed by the spell-penalty logic of `step`:
each non-`(0,0)` enemy slot `(ex, ey)` of the state vector becomes
`(int(ex * WIDTH), int(ey * HEIGHT))` — coordinates relative to the captured
area, without the `TOP_LEFT` offset. -/
def enemyAreaPixels (cfg : ScreenCfg) (s : List ℚ) : List (ℤ × ℤ) :=
  ((pairsOf (enemyCoords s)).filter fun u => ¬(u.1 = 0 ∧ u.2 = 0)).map
    fun u => (truncInt (u.1 * (cfg.WIDTH : ℚ)), truncInt (u.2 * (cfg.HEIGHT : ℚ)))

/-- The actual screen position of a detected enemy: its pixel position inside
the captured area plus the capture-area origin `(TOP_LEFT_X, TOP_LEFT_Y)`
(the same offset `step` adds to the click fractions to obtain the click
coordinates). -/
def enemyScreenPixels (cfg : ScreenCfg) (s : List ℚ) : List (ℤ × ℤ) :=
  (enemyAreaPixels cfg s).map fun p => (p.1 + cfg.TOP_LEFT_X, p.2 + cfg.TOP_LEFT_Y)

/-- Model of `found_enemy` in `step`'s spell-penalty logic:
`any(((ex - x)**2 + (ey - y)**2) ** 0.5 < radius …)` with `radius = 100`;
since both sides are non-negative, `sqrt(d) < 100` is `d < 100²`. -/
def foundEnemyNearClick (cfg : ScreenCfg) (s : List ℚ) (x y : ℤ) : Bool :=
  (enemyAreaPixels cfg s).any fun p =>
    decide ((p.1 - x) ^ 2 + (p.2 - y) ^ 2 < 100 ^ 2)

/-- The terminal bonus applied by `step` when `game_over_flag` is set:
`reward += 100` on `"victory"`, `reward -= 100` on `"defeat"`. -/
def terminalBonus : GameResult → ℚ
  | GameResult.victory => 100
  | GameResult.defeat => -100

/-- The tail of `step` (reached when no early branch fired and the hand is
known): resolve `available_actions[action_index]`, play the card when the
slot is valid, apply the spell-waste and princess-tower logic and compute the
shaped reward. -/
def stepMain (cfg : ScreenCfg) (gw gh a2 : ℕ) (o : Obs) (e3 : EnvMut) : StepResult :=
  let action := (availableActions gw gh).getD a2 (-1, 0, 0)
  let cardIndex := action.1
  let x := truncInt (action.2.1 * (cfg.WIDTH : ℚ)) + cfg.TOP_LEFT_X
  let y := truncInt (action.2.2 * (cfg.HEIGHT : ℚ)) + cfg.TOP_LEFT_Y
  let plays := cardIndex ≠ -1 ∧ cardIndex < (o.cards.length : ℤ)
  let cardName := o.cards.getD cardIndex.toNat ""
  let spellPenalty : ℚ :=
    if plays ∧ cardName ∈ SPELL_CARDS ∧ foundEnemyNearClick cfg o.state x y = false
    then -5 else 0
  let princessReward : ℚ :=
    match e3.prevEnemyPrincessTowers with
    | some p => if o.enemyPrincessTowers < p then 20 else 0
    | none => 0
  let r := computeReward o.state e3.prevElixir e3.prevEnemyPresence +
    spellPenalty + princessReward
  { nextState := o.state
    reward := r
    done := false
    played := if plays then some (cardName, x, y) else none
    env := { e3 with
      prevEnemyPrincessTowers := some o.enemyPrincessTowers
      prevElixir := some (stateElixir o.state)
      prevEnemyPresence := some (enemyPresence o.state) } }

/-- Model of `ClashRoyaleEnv.step`.  `aIdx` is `action_index`; `gw`, `gh` are the grid
dimensions.  The all-`"Unknown"`-cards branch merges the not-in-battle and
safe-center-click sub-branches, which both return `(state, 0, False)`.
List indexing `self.available_actions[action_index]` is modelled with a
`(-1, 0, 0)` default; every call site supplies an in-range index. -/
def step (cfg : ScreenCfg) (gw gh : ℕ) (aIdx : ℕ) (o : Obs) (e : EnvMut) : StepResult :=
  if o.screen = ScreenState.homeScreen then
    { nextState := o.state
      reward := 5
      done := false
      played := none
      env := { e with onHomeScreen := true, inBattle := false } }
  else
    let e1 :=
      if o.screen = ScreenState.postMatch then
        { e with matchOverDetected := true, inBattle := false }
      else if o.screen = ScreenState.inBattleScr then
        { e with inBattle := true, onHomeScreen := false }
      else e
    let a1 := if o.screen = ScreenState.postMatch then noopIndex gw gh else aIdx
    if !e1.trophyRoadDetected && o.trophyRoadVisible then
      { nextState := o.state
        reward := 10
        done := false
        played := none
        env := { e1 with trophyRoadDetected := true } }
    else
      let e2 :=
        if !e1.matchOverDetected && o.matchOverVisible then
          { e1 with matchOverDetected := true }
        else e1
      let a2 := if e2.matchOverDetected then noopIndex gw gh else a1
      match o.gameOver with
      | some res =>
        let r := computeReward o.state e2.prevElixir e2.prevEnemyPresence +
          terminalBonus res
        { nextState := o.state
          reward := r
          done := true
          played := none
          env := { e2 with
            prevElixir := some (stateElixir o.state)
            prevEnemyPresence := some (enemyPresence o.state)
            matchOverDetected := false } }
      | none =>
        let e3 := { e2 with currentCards := o.cards }
        if o.cards.all fun c => c = "Unknown" then
          { nextState := o.state, reward := 0, done := false, played := none, env := e3 }
        else
          stepMain cfg gw gh a2 o e3

/-! ## `_endgame_watcher` and `Actions.detect_game_end` -/

/-- What one execution of the body of `Actions.detect_game_end`'s `try` block
does: either it completes and yields an optional result, or it raises an
exception (carrying some error code). -/
inductive PollOutcome where
  | ok (r : Option GameResult)
  | exc (e : ℕ)

/-- Model of `Actions.detect_game_end`: its single `try` wraps the whole body, the
`except Exception` handler only prints, and the function falls through to
`return None` — so an exception inside the detection body yields `None`. -/
def detectGameEnd : PollOutcome → Option GameResult
  | PollOutcome.ok r => r
  | PollOutcome.exc _ => none

/-- Model of `ClashRoyaleEnv._endgame_watcher`, run over a (finite) list of successive
poll outcomes: each iteration calls `detect_game_end`; a truthy result sets
`game_over_flag` and breaks, otherwise the loop sleeps and polls again.  The
returned value is the final `game_over_flag` (`none` when the stop event ended
the loop first). -/
def watcherRun : List PollOutcome → Option GameResult
  | [] => none
  | o :: rest =>
    match detectGameEnd o with
    | some r => some r
    | none => watcherRun rest

/-! ## `DQNAgent`: smart logic and `act` -/

/-- Inside `act`, `state = torch.FloatTensor(state).unsqueeze(0)`, so the
slices `_apply_smart_logic` builds are torch tensors, while short states
(`len(state[0]) <= 21`) yield plain Python `[]` lists.  The distinction
matters for truthiness: `bool(list)` is emptiness, but `bool(tensor)` raises
`RuntimeError` unless the tensor has exactly one element. -/
inductive PyVec where
  | tensor (elems : List ℚ)
  | pylist (elems : List ℚ)

/-- The numeric contents of a tensor or list (what `len`, slicing and
iteration see). -/
def PyVec.data : PyVec → List ℚ
  | PyVec.tensor l => l
  | PyVec.pylist l => l

/-- Model of Python truthiness, `bool(v)`, as used by `if not enemy_positions:`.
For a list it is non-emptiness; for a torch tensor it raises
`RuntimeError: Boolean value of Tensor with more than one element is
ambiguous` unless the tensor has exactly one element (then it is that
element's non-zeroness). -/
def pyTruth : PyVec → Except String Bool
  | PyVec.pylist l => Except.ok (!l.isEmpty)
  | PyVec.tensor l =>
    if l.length = 1 then Except.ok (decide (l.getD 0 0 ≠ 0))
    else Except.error "Boolean value of Tensor is ambiguous"

/-- Model of `DQNAgent._urgent_defense_needed`: `if not enemy_positions:`
evaluates `bool(enemy_positions)` (which raises on a multi-element tensor);
otherwise any enemy y-coordinate (`enemy_positions[1::2]`) above 500. -/
def urgentDefenseNeeded (enemyPositions : PyVec) : Except String Bool :=
  match pyTruth enemyPositions with
  | Except.error e => Except.error e
  | Except.ok t =>
    if !t then Except.ok false
    else Except.ok ((oddSlots enemyPositions.data).any fun p => decide (500 < p))

/-- Model of `DQNAgent._enemy_will_die_soon`: same `if not enemy_positions:`
truthiness test first, then `len(...) > 0 and sum(...) < 1000`. -/
def enemyWillDieSoon (enemyPositions : PyVec) : Except String Bool :=
  match pyTruth enemyPositions with
  | Except.error e => Except.error e
  | Except.ok t =>
    if !t then Except.ok false
    else Except.ok (decide (0 < enemyPositions.data.length) &&
      decide (enemyPositions.data.sum < 1000))

/-- Model of `DQNAgent._should_save_elixir`, with Python's short-circuit
`and`: `_urgent_defense_needed` runs only when `elixir < 3`, and an exception
raised by either helper propagates to the caller. -/
def shouldSaveElixir (elixir : ℚ) (enemyPositions allyPositions : PyVec) :
    Except String Bool :=
  let c1 : Except String Bool :=
    if elixir < 3 then
      match urgentDefenseNeeded enemyPositions with
      | Except.error e => Except.error e
      | Except.ok u => Except.ok (!u)
    else Except.ok false
  match c1 with
  | Except.error e => Except.error e
  | Except.ok true => Except.ok true
  | Except.ok false =>
    match enemyWillDieSoon enemyPositions with
    | Except.error e => Except.error e
    | Except.ok true => Except.ok true
    | Except.ok false =>
      if enemyPositions.data.length < allyPositions.data.length ∧ elixir < 6 then
        Except.ok true
      else Except.ok false

/-- Model of `DQNAgent._get_high_elixir_action`: the first action in `[1, 2, 3, 4, 5]`
that is in range and whose q-value exceeds 0.7. -/
def highElixirAction (q : List ℚ) : Option ℕ :=
  [1, 2, 3, 4, 5].find? fun a => decide (a < q.length) && decide ((7 / 10 : ℚ) < q.getD a 0)

/-- The body of `DQNAgent._apply_smart_logic` (the code inside its `try`),
for a fresh agent (the learned dictionaries `battle_phase_strategies`,
`counter_strategies`, `positioning_data` and `timing_patterns` are all empty,
as initialised in `__init__`).  A full-length state (`len(state[0]) > 21`)
makes the ally/enemy slices tensors; a short state makes them Python `[]`
lists, for which the later counter/positioning guards (`len(...) > 0`) are
false and the timing lookup in the empty dictionary yields `None`. -/
def applySmartLogicBody (state q : List ℚ) : Except String (Option ℕ) :=
  let elixir := if 0 < state.length then state.getD 0 0 * 10 else 0
  let allyPositions : PyVec :=
    if 21 < state.length then PyVec.tensor ((state.drop 1).take 20) else PyVec.pylist []
  let enemyPositions : PyVec :=
    if 21 < state.length then PyVec.tensor (state.drop 21) else PyVec.pylist []
  match shouldSaveElixir elixir enemyPositions allyPositions with
  | Except.error e => Except.error e
  | Except.ok true => Except.ok (some 0)
  | Except.ok false =>
    if 8 ≤ elixir then
      match highElixirAction q with
      | some a => Except.ok (some a)
      | none => Except.ok none
    else Except.ok none

/-- Model of `DQNAgent._apply_smart_logic`: its `except Exception` handler
prints the error and returns `None`, so any exception raised inside the body
(in particular the tensor-truthiness `RuntimeError`) becomes `None`. -/
def applySmartLogic (state q : List ℚ) : Option ℕ :=
  match applySmartLogicBody state q with
  | Except.ok r => r
  | Except.error _ => none

/-- Model of `torch.argmax` over the q-value vector: the index of the first maximal
entry (0 on an empty vector). -/
def argmaxAux : ℕ → ℕ → ℚ → List ℚ → ℕ
  | _, bi, _, [] => bi
  | i, bi, bv, v :: rest =>
    if bv < v then argmaxAux (i + 1) i v rest else argmaxAux (i + 1) bi bv rest

/-- The index `q_values.argmax().item()` selects. -/
def argmaxIdx : List ℚ → ℕ
  | [] => 0
  | v :: rest => argmaxAux 1 0 v rest

/-- Model of `DQNAgent.act`: `randVal` is the draw of `random.random()` and
`randAction` the draw of `random.randrange(action_size)`; `smartLogic` is the
`self.smart_logic` flag (`True` by default). -/
def act (epsilon randVal : ℚ) (randAction : ℕ) (state q : List ℚ)
    (smartLogic : Bool) : ℕ :=
  if randVal < epsilon then randAction
  else
    match (if smartLogic then applySmartLogic state q else none) with
    | some a => a
    | none => argmaxIdx q

/-! ## `DQNAgent`: win/loss tracking and loss punishment -/

/-- One entry of `DQNAgent.memory`: `(state, action, reward, next_state, done)`. -/
structure Transition where
  s : List ℚ
  a : ℕ
  r : ℚ
  s2 : List ℚ
  done : Bool
deriving DecidableEq

/-- The loop of `_apply_loss_punishment` over `enumerate(recent_actions)`:
entry `i` (counting from the oldest of the slice) gets
`reward + (-severity * (5 - i))`. -/
def punishIdx (sev : ℚ) : ℕ → List Transition → List Transition
  | _, [] => []
  | i, t :: rest => { t with r := t.r + -sev * (5 - (i : ℚ)) } :: punishIdx sev (i + 1) rest

/-- The effect of `DQNAgent._apply_loss_punishment` on `self.memory`:
with at least 5 stored transitions the last five get the decaying punishment;
with 1–4 transitions the write `self.memory[-5 + i]` raises `IndexError` on
the first iteration, the outer `except` swallows it and the memory is left
unchanged; with an empty memory the block is skipped. -/
def applyLossPunishment (totalReward : ℚ) (mem : List Transition) : List Transition :=
  if 5 ≤ mem.length then
    mem.take (mem.length - 5) ++
      punishIdx (|totalReward| / 100) 0 (mem.drop (mem.length - 5))
  else mem

/-- The `DQNAgent` attributes involved in win/loss tracking.  The loss
bookkeeping dictionaries (`loss_analysis`, `strategy_adaptation`,
`recent_losses`) and the optimizer learning rate are not modelled; `epsilon`
and `memory` updates are. -/
structure AgentState where
  winStreak : ℕ
  bestWinStreak : ℕ
  totalWins : ℕ
  totalLosses : ℕ
  epsilon : ℚ
  memory : List Transition
  gameOutcomes : List String
  learningFromLosses : Bool

/-- Model of `DQNAgent._apply_loss_punishment` (its effect on the modelled
attributes).  The `epsilon` bump at the end of the `try` block is skipped
exactly when the `IndexError` of the 1–4-transitions case aborts the block. -/
def applyLossPunishmentState (totalReward : ℚ) (st : AgentState) : AgentState :=
  if st.memory.length = 0 then
    { st with epsilon := min (4 / 5) (st.epsilon + 1 / 10) }
  else if 5 ≤ st.memory.length then
    { st with
      memory := applyLossPunishment totalReward st.memory
      epsilon := min (4 / 5) (st.epsilon + 1 / 10) }
  else st

/-- Model of `DQNAgent._analyze_loss` (its effect on the modelled attributes): apply
the loss punishment, then — if at least 2 of the last 3 recorded game
outcomes are defeats — bump exploration. -/
def analyzeLoss (totalReward : ℚ) (st : AgentState) : AgentState :=
  let st1 := applyLossPunishmentState totalReward st
  if 3 < st1.gameOutcomes.length ∧
      2 ≤ ((st1.gameOutcomes.drop (st1.gameOutcomes.length - 3)).countP
            fun o => decide (o = "defeat")) then
    { st1 with epsilon := min (7 / 10) (st1.epsilon + 3 / 20) }
  else st1

/-- Model of `DQNAgent.update_game_outcome`.  `gameDataPresent` models the truthiness
of the `game_data` argument. -/
def updateGameOutcome (outcome : String) (totalReward : ℚ) (gameDataPresent : Bool)
    (st : AgentState) : AgentState :=
  let st1 :=
    if outcome = "victory" then
      let ws := st.winStreak + 1
      { st with
        winStreak := ws
        totalWins := st.totalWins + 1
        bestWinStreak := max st.bestWinStreak ws }
    else if outcome = "defeat" then
      let st2 := { st with winStreak := 0, totalLosses := st.totalLosses + 1 }
      if st2.learningFromLosses && gameDataPresent then analyzeLoss totalReward st2 else st2
    else st
  let go := st1.gameOutcomes ++ [outcome]
  { st1 with gameOutcomes := if 20 < go.length then go.drop 1 else go }


/-! ## Concrete inputs used in witnesses and counterexamples -/

/-- An environment-state record as set up by `reset` (no popups seen,
no shaping memory). -/
def e0 : EnvMut :=
  { matchOverDetected := false
    trophyRoadDetected := false
    inBattle := false
    onHomeScreen := false
    prevElixir := none
    prevEnemyPresence := none
    prevEnemyPrincessTowers := none
    currentCards := [] }

/-- The all-zero state vector (no elixir, no detections). -/
def zeroState : List ℚ :=
  [0, 0, 0, 0, 0, 0, 0, 0, 0, 0, 0, 0, 0, 0, 0, 0, 0, 0, 0, 0, 0,
   0, 0, 0, 0, 0, 0, 0, 0, 0, 0, 0, 0, 0, 0, 0, 0, 0, 0, 0, 0]

/-- State with a single enemy at normalised y = 1/10 (slot index 22),
otherwise zero. -/
def stY01 : List ℚ :=
  [0, 0, 0, 0, 0, 0, 0, 0, 0, 0, 0, 0, 0, 0, 0, 0, 0, 0, 0, 0, 0,
   0, 1/10, 0, 0, 0, 0, 0, 0, 0, 0, 0, 0, 0, 0, 0, 0, 0, 0, 0, 0]

/-- State with a single enemy at normalised y = 2/5, otherwise zero. -/
def stY04 : List ℚ :=
  [0, 0, 0, 0, 0, 0, 0, 0, 0, 0, 0, 0, 0, 0, 0, 0, 0, 0, 0, 0, 0,
   0, 2/5, 0, 0, 0, 0, 0, 0, 0, 0, 0, 0, 0, 0, 0, 0, 0, 0, 0, 0]

/-- State with a single enemy at normalised y = 1/2 and x = 1/2
(slots 21 and 22), otherwise zero. -/
def stXY05 : List ℚ :=
  [0, 0, 0, 0, 0, 0, 0, 0, 0, 0, 0, 0, 0, 0, 0, 0, 0, 0, 0, 0, 0,
   1/2, 1/2, 0, 0, 0, 0, 0, 0, 0, 0, 0, 0, 0, 0, 0, 0, 0, 0, 0, 0]

/-- State with a single enemy at normalised y = 9/10 (deep in the
bot's half), otherwise zero. -/
def stY09 : List ℚ :=
  [0, 0, 0, 0, 0, 0, 0, 0, 0, 0, 0, 0, 0, 0, 0, 0, 0, 0, 0, 0, 0,
   0, 9/10, 0, 0, 0, 0, 0, 0, 0, 0, 0, 0, 0, 0, 0, 0, 0, 0, 0, 0]

/-- State with a single enemy at normalised y = 1/2, otherwise zero. -/
def stY05 : List ℚ :=
  [0, 0, 0, 0, 0, 0, 0, 0, 0, 0, 0, 0, 0, 0, 0, 0, 0, 0, 0, 0, 0,
   0, 1/2, 0, 0, 0, 0, 0, 0, 0, 0, 0, 0, 0, 0, 0, 0, 0, 0, 0, 0]

/-- State with a single enemy at normalised y = 1, otherwise zero. -/
def stY10 : List ℚ :=
  [0, 0, 0, 0, 0, 0, 0, 0, 0, 0, 0, 0, 0, 0, 0, 0, 0, 0, 0, 0, 0,
   0, 1, 0, 0, 0, 0, 0, 0, 0, 0, 0, 0, 0, 0, 0, 0, 0, 0, 0, 0]

/-- State with elixir slot 1/5 (2 elixir) and no detections. -/
def stElixir2 : List ℚ :=
  [1/5, 0, 0, 0, 0, 0, 0, 0, 0, 0, 0, 0, 0, 0, 0, 0, 0, 0, 0, 0, 0,
   0, 0, 0, 0, 0, 0, 0, 0, 0, 0, 0, 0, 0, 0, 0, 0, 0, 0, 0, 0]

/-- A q-value vector whose argmax is index 1, not 0. -/
def qPref1 : List ℚ := [0, 1]

/-- Observation for C1's counterexample: the watcher has flagged victory but
the screen detector reports the home screen. -/
def c1Obs : Obs :=
  { screen := ScreenState.homeScreen
    trophyRoadVisible := false
    matchOverVisible := false
    gameOver := some GameResult.victory
    cards := []
    state := zeroState
    enemyPrincessTowers := 0 }

/-- Observation for C1's witness: victory flagged, unremarkable screen. -/
def c1ObsB : Obs :=
  { screen := ScreenState.unknownScreen
    trophyRoadVisible := false
    matchOverVisible := false
    gameOver := some GameResult.victory
    cards := []
    state := zeroState
    enemyPrincessTowers := 0 }

/-- Observation for C3: in battle, one detected hand card, one enemy on the
field. -/
def c3Obs : Obs :=
  { screen := ScreenState.inBattleScr
    trophyRoadVisible := false
    matchOverVisible := false
    gameOver := none
    cards := ["Knight"]
    state := stY04
    enemyPrincessTowers := 0 }

/-- State with a single enemy at normalised (1/1000, 1/1000) — area pixel
(0, 0), i.e. screen pixel (TOP_LEFT_X, TOP_LEFT_Y) — otherwise zero. -/
def stXYeps : List ℚ :=
  [0, 0, 0, 0, 0, 0, 0, 0, 0, 0, 0, 0, 0, 0, 0, 0, 0, 0, 0, 0, 0,
   1/1000, 1/1000, 0, 0, 0, 0, 0, 0, 0, 0, 0, 0, 0, 0, 0, 0, 0, 0, 0, 0]

/-- Observation for C8: in battle, a spell in slot 0, one enemy detected at
the very corner of the field. -/
def c8Obs : Obs :=
  { screen := ScreenState.inBattleScr
    trophyRoadVisible := false
    matchOverVisible := false
    gameOver := none
    cards := ["Zap"]
    state := stXYeps
    enemyPrincessTowers := 0 }

/-- A stored transition with reward 0. -/
def zeroTransition : Transition :=
  { s := [], a := 0, r := 0, s2 := [], done := false }

/-- A replay memory of five zero-reward transitions. -/
def mem5 : List Transition :=
  [zeroTransition, zeroTransition, zeroTransition, zeroTransition, zeroTransition]

/-- A fresh agent state holding `mem5` (loss learning enabled, as by
default). -/
def agent5 : AgentState :=
  { winStreak := 0
    bestWinStreak := 0
    totalWins := 0
    totalLosses := 0
    epsilon := 1
    memory := mem5
    gameOutcomes := []
    learningFromLosses := true }



/-! ## Helper lemmas -/

theorem flattenPairs_length (l : List (ℚ × ℚ)) : (flattenPairs l).length = 2 * l.length := by
  induction l with
  | nil => rfl
  | cons h t ih =>
    obtain ⟨x, y⟩ := h
    simp [flattenPairs, ih]
    omega

theorem normalizeUnits_length (cfg : ScreenCfg) (u : List (ℚ × ℚ)) :
    (normalizeUnits cfg u).length = u.length := by
  simp [normalizeUnits]

theorem padUnits_eq (cfg : ScreenCfg) (u : List (ℚ × ℚ)) (m : ℕ) :
    padUnits cfg u m =
      ((normalizeUnits cfg u) ++
        List.replicate (m - (normalizeUnits cfg u).length) ((0 : ℚ), (0 : ℚ))).take m := by
  unfold padUnits
  by_cases h : (normalizeUnits cfg u).length < m
  · simp [h]
  · have h0 : m - (normalizeUnits cfg u).length = 0 := by omega
    simp [h, h0]

theorem padUnits_length (cfg : ScreenCfg) (u : List (ℚ × ℚ)) (m : ℕ) :
    (padUnits cfg u m).length = m := by
  rw [padUnits_eq]
  simp
  omega

theorem closeEnemyCount_eq_zero (s : List ℚ) (h : ∀ y ∈ enemyYs s, y ≤ 500) :
    closeEnemyCount s = 0 := by
  unfold closeEnemyCount
  rw [List.countP_eq_zero]
  intro y hy
  simp only [decide_eq_true_eq]
  exact not_lt.mpr (h y hy)

theorem computeReward_eq (s : List ℚ) (pe pp : Option ℚ) :
    computeReward s pe pp =
      -(enemyPresence s) * (1 / 2) +
      (match pe with
       | some p => if 0 < enemyPresence s ∧ 0 < p - stateElixir s then (5 : ℚ) else 0
       | none => 0) +
      (match pp with
       | some q => if 0 < q - enemyPresence s then 10 * (q - enemyPresence s) else 0
       | none => 0) +
      (match pe, pp with
       | some p, some q =>
         if 0 < p - stateElixir s ∧ 0 < q - enemyPresence s then
           3 * min (p - stateElixir s) (q - enemyPresence s)
         else 0
       | _, _ => 0) -
      (if 0 < enemyPresence s then 2 * (closeEnemyCount s : ℚ) else 0) := rfl

/-! ## Claim theorems -/

/-- C2: for every configuration, elixir reading and detection list, the
encoded state vector has length exactly `1 + 4 * 10 = 41`; ally and enemy
slots are the normalised detections padded with `(0, 0)` up to 10 and
truncated (in detector order) to 10. -/
theorem c2_encode_fixed_length (cfg : ScreenCfg) (elixir : ℚ) (preds : List Prediction) :
    (getState cfg elixir preds).length = 1 + 4 * 10 ∧
    padUnits cfg (allyUnits preds) MAX_ALLIES =
      (normalizeUnits cfg (allyUnits preds) ++
        List.replicate (MAX_ALLIES - (allyUnits preds).length) ((0 : ℚ), (0 : ℚ))).take
        MAX_ALLIES ∧
    padUnits cfg (enemyUnits preds) MAX_ENEMIES =
      (normalizeUnits cfg (enemyUnits preds) ++
        List.replicate (MAX_ENEMIES - (enemyUnits preds).length) ((0 : ℚ), (0 : ℚ))).take
        MAX_ENEMIES := by
  refine ⟨?_, ?_, ?_⟩
  · simp [getState, flattenPairs_length, padUnits_length, MAX_ALLIES, MAX_ENEMIES]
  · rw [padUnits_eq, normalizeUnits_length]
  · rw [padUnits_eq, normalizeUnits_length]

/-- C9: an exception raised inside the body of the game-end detection call is
swallowed there (`detect_game_end` returns `None`), so the watcher loop
continues with the next poll; an exception outcome never ends the loop. -/
theorem c9_watcher_survives_exception (e : ℕ) (rest : List PollOutcome) :
    detectGameEnd (PollOutcome.exc e) = none ∧
    watcherRun (PollOutcome.exc e :: rest) = watcherRun rest :=
  ⟨rfl, rfl⟩

/-- C7: the close-enemy penalty compares normalised y-coordinates (all
≤ 1) against the threshold 500, so it can never fire on an encoder-produced
state: for every state whose enemy y-coordinates lie in [0, 1] the close-enemy
count is 0, and at a state with an enemy deep in the bot's half (normalised
y = 9/10) the reward is just the base term −presence/2, with no −2 penalty. -/
theorem c7_close_enemy_penalty_never_fires :
    (∀ s : List ℚ, (∀ y ∈ enemyYs s, 0 ≤ y ∧ y ≤ 1) → closeEnemyCount s = 0) ∧
    enemyPresence stY09 = 9 / 10 ∧
    closeEnemyCount stY09 = 0 ∧
    computeReward stY09 none none = -(9 / 20) := by
  refine ⟨?_, ?_, ?_, ?_⟩
  · intro s h
    exact closeEnemyCount_eq_zero s fun y hy => by linarith [(h y hy).2]
  · norm_num [stY09, enemyPresence, enemyYs, enemyCoords, oddSlots, everyOther]
  · norm_num [stY09, closeEnemyCount, enemyYs, enemyCoords, oddSlots, everyOther]
  · norm_num [computeReward, stateElixir, enemyPresence, closeEnemyCount, enemyYs,
      enemyCoords, oddSlots, everyOther, stY09]

/-- Witness for C7: the universally quantified part applied to the concrete
state `stY09`, whose enemy coordinates are normalised. -/
theorem c7_close_enemy_penalty_never_fires_witness : closeEnemyCount stY09 = 0 :=
  c7_close_enemy_penalty_never_fires.1 stY09 (by
    norm_num [stY09, enemyYs, enemyCoords, oddSlots, everyOther])


theorem reward_t2_antitone (q ep1 ep2 : ℚ) (h : ep1 ≤ ep2) :
    (if 0 < q - ep2 then 10 * (q - ep2) else 0) ≤
      (if 0 < q - ep1 then 10 * (q - ep1) else 0) := by
  by_cases h2 : 0 < q - ep2
  · rw [if_pos h2, if_pos (by linarith : 0 < q - ep1)]
    linarith
  · rw [if_neg h2]
    by_cases h1 : 0 < q - ep1
    · rw [if_pos h1]
      linarith
    · rw [if_neg h1]

theorem reward_t3_antitone (p e q ep1 ep2 : ℚ) (h : ep1 ≤ ep2) :
    (if 0 < p - e ∧ 0 < q - ep2 then 3 * min (p - e) (q - ep2) else 0) ≤
      (if 0 < p - e ∧ 0 < q - ep1 then 3 * min (p - e) (q - ep1) else 0) := by
  by_cases h2 : 0 < p - e ∧ 0 < q - ep2
  · rw [if_pos h2, if_pos ⟨h2.1, by linarith [h2.2]⟩]
    have hm : min (p - e) (q - ep2) ≤ min (p - e) (q - ep1) :=
      min_le_min le_rfl (by linarith)
    linarith
  · rw [if_neg h2]
    by_cases h1 : 0 < p - e ∧ 0 < q - ep1
    · rw [if_pos h1]
      have hmin : 0 < min (p - e) (q - ep1) := lt_min h1.1 h1.2
      linarith
    · rw [if_neg h1]

/-- C5 (amended): with identical shaping memory and identical elixir, and
with enemy presence strictly positive in both states (and all enemy
y-coordinates at most the 500 threshold, as normalised coordinates are),
the reward is strictly smaller for the state with the larger enemy
presence.  The positivity requirement on the first state is forced by the
counterexample `c5_counterexample`: when presence crosses 0 the flat +5
defensive-spend bonus can outweigh the base penalty. -/
theorem c5_reward_antitone_in_enemy_presence (s1 s2 : List ℚ) (pe pp : Option ℚ)
    (hEl : stateElixir s1 = stateElixir s2)
    (h0 : 0 < enemyPresence s1)
    (h12 : enemyPresence s1 < enemyPresence s2)
    (hy1 : ∀ y ∈ enemyYs s1, y ≤ 500)
    (hy2 : ∀ y ∈ enemyYs s2, y ≤ 500) :
    computeReward s2 pe pp < computeReward s1 pe pp := by
  have h02 : 0 < enemyPresence s2 := lt_trans h0 h12
  rw [computeReward_eq, computeReward_eq, closeEnemyCount_eq_zero s1 hy1,
    closeEnemyCount_eq_zero s2 hy2, hEl]
  set e := stateElixir s2 with he
  set ep1 := enemyPresence s1 with hep1
  set ep2 := enemyPresence s2 with hep2
  rcases pe with _ | p <;> rcases pp with _ | q <;>
    simp only [Nat.cast_zero, mul_zero, ite_self, sub_zero, add_zero, eq_true h0,
      eq_true h02, true_and]
  · linarith
  · have ht2 := reward_t2_antitone q ep1 ep2 h12.le
    linarith
  · linarith
  · have ht2 := reward_t2_antitone q ep1 ep2 h12.le
    have ht3 := reward_t3_antitone p e q ep1 ep2 h12.le
    linarith

/-- Counterexample to C5 as stated: two states identical except that the
second has one enemy at normalised y = 1/10 (slot 22) while the first has
none, with identical memory `prev_elixir = 1`, `prev_enemy_presence = 0` and
identical elixir 0.  The second state has the strictly larger enemy presence
but receives the strictly LARGER reward (99/20 > 0), because the +5
defensive-spend bonus fires only when presence is positive. -/
theorem c5_counterexample :
    stateElixir zeroState = stateElixir stY01 ∧
    enemyPresence zeroState = 0 ∧
    enemyPresence stY01 = 1 / 10 ∧
    computeReward zeroState (some 1) (some 0) = 0 ∧
    computeReward stY01 (some 1) (some 0) = 99 / 20 ∧
    ¬computeReward stY01 (some 1) (some 0) < computeReward zeroState (some 1) (some 0) := by
  refine ⟨?_, ?_, ?_, ?_, ?_, ?_⟩ <;>
    norm_num [computeReward, stateElixir, enemyPresence, closeEnemyCount, enemyYs,
      enemyCoords, oddSlots, everyOther, zeroState, stY01]

/-- Witness for C5: the amended theorem applied to states with one enemy at
normalised y = 1/2 resp. y = 1 and empty shaping memory. -/
theorem c5_reward_antitone_witness :
    stateElixir stY05 = stateElixir stY10 ∧
    0 < enemyPresence stY05 ∧
    enemyPresence stY05 < enemyPresence stY10 ∧
    computeReward stY10 none none < computeReward stY05 none none := by
  have hEl : stateElixir stY05 = stateElixir stY10 := by
    norm_num [stateElixir, stY05, stY10]
  have h0 : 0 < enemyPresence stY05 := by
    norm_num [enemyPresence, enemyYs, enemyCoords, oddSlots, everyOther, stY05]
  have h12 : enemyPresence stY05 < enemyPresence stY10 := by
    norm_num [enemyPresence, enemyYs, enemyCoords, oddSlots, everyOther, stY05, stY10]
  have hy1 : ∀ y ∈ enemyYs stY05, y ≤ 500 := by
    intro y hy
    simp [enemyYs, enemyCoords, oddSlots, everyOther, stY05] at hy
    rcases hy with h | h <;> subst h <;> norm_num
  have hy2 : ∀ y ∈ enemyYs stY10, y ≤ 500 := by
    intro y hy
    simp [enemyYs, enemyCoords, oddSlots, everyOther, stY10] at hy
    rcases hy with h | h <;> subst h <;> norm_num
  exact ⟨hEl, h0, h12,
    c5_reward_antitone_in_enemy_presence stY05 stY10 none none hEl h0 h12 hy1 hy2⟩


theorem punishIdx_length (sev : ℚ) (l : List Transition) :
    ∀ i, (punishIdx sev i l).length = l.length := by
  induction l with
  | nil => intro i; rfl
  | cons t rest ih => intro i; simp [punishIdx, ih]

theorem punishIdx_getD_r (sev : ℚ) (d : Transition) (l : List Transition) :
    ∀ i j, j < l.length →
      ((punishIdx sev i l).getD j d).r =
        (l.getD j d).r + -sev * (5 - ((i + j : ℕ) : ℚ)) := by
  induction l with
  | nil => intro i j hj; simp at hj
  | cons t rest ih =>
    intro i j hj
    cases j with
    | zero => simp [punishIdx]
    | succ j =>
      have := ih (i + 1) j (by simpa using hj)
      simp only [punishIdx, List.getD_cons_succ]
      rw [this]
      congr 2
      push_cast
      ring

theorem applyLossPunishment_length (tr : ℚ) (mem : List Transition) :
    (applyLossPunishment tr mem).length = mem.length := by
  unfold applyLossPunishment
  split
  · rename_i h5
    rw [List.length_append, List.length_take, punishIdx_length, List.length_drop]
    omega
  · rfl

theorem applyLossPunishment_getD_r (tr : ℚ) (mem : List Transition) (d : Transition)
    (h5 : 5 ≤ mem.length) (j : ℕ) (hj : j < 5) :
    ((applyLossPunishment tr mem).getD (mem.length - 5 + j) d).r =
      (mem.getD (mem.length - 5 + j) d).r - |tr| / 100 * (5 - (j : ℚ)) := by
  unfold applyLossPunishment
  rw [if_pos h5]
  have htake : (mem.take (mem.length - 5)).length = mem.length - 5 := by
    rw [List.length_take]
    omega
  have hdroplen : (mem.drop (mem.length - 5)).length = 5 := by
    rw [List.length_drop]
    omega
  have h1 : (mem.take (mem.length - 5) ++
      punishIdx (|tr| / 100) 0 (mem.drop (mem.length - 5))).getD (mem.length - 5 + j) d =
      (punishIdx (|tr| / 100) 0 (mem.drop (mem.length - 5))).getD j d := by
    rw [List.getD_eq_getElem?_getD, List.getD_eq_getElem?_getD,
      List.getElem?_append_right (by rw [htake]; exact Nat.le_add_right _ _), htake,
      Nat.add_sub_cancel_left]
  have h2 : (mem.drop (mem.length - 5)).getD j d = mem.getD (mem.length - 5 + j) d := by
    rw [List.getD_eq_getElem?_getD, List.getElem?_drop, ← List.getD_eq_getElem?_getD]
  rw [h1, punishIdx_getD_r (|tr| / 100) d (mem.drop (mem.length - 5)) 0 j
    (by rw [hdroplen]; exact hj), h2]
  push_cast
  ring

theorem applyLossPunishment_getD_prefix (tr : ℚ) (mem : List Transition) (d : Transition)
    (h5 : 5 ≤ mem.length) (i : ℕ) (hi : i < mem.length - 5) :
    (applyLossPunishment tr mem).getD i d = mem.getD i d := by
  unfold applyLossPunishment
  rw [if_pos h5]
  rw [List.getD_eq_getElem?_getD,
    List.getElem?_append_left (by rw [List.length_take]; omega),
    List.getElem?_take_of_lt hi, ← List.getD_eq_getElem?_getD]

theorem updateGameOutcome_defeat_memory (tr : ℚ) (st : AgentState)
    (hL : st.learningFromLosses = true) :
    (updateGameOutcome "defeat" tr true st).memory = applyLossPunishment tr st.memory := by
  by_cases h0 : st.memory.length = 0
  · simp [updateGameOutcome, analyzeLoss, applyLossPunishmentState, applyLossPunishment,
      hL, h0, apply_ite AgentState.memory]
  · by_cases h5 : 5 ≤ st.memory.length
    · simp [updateGameOutcome, analyzeLoss, applyLossPunishmentState, applyLossPunishment,
        hL, h0, h5, apply_ite AgentState.memory]
    · simp [updateGameOutcome, analyzeLoss, applyLossPunishmentState, applyLossPunishment,
        hL, h0, h5, apply_ite AgentState.memory]


/-- C6 (amended): on a defeat with game data present, `update_game_outcome`
retroactively adjusts the rewards of the last five stored transitions by a
non-positive amount whose magnitude DECAYS toward the most recent
transition: transition `j` of the last five (j = 0 oldest, j = 4 most
recent) loses `|total_reward|/100 * (5 - j)`, so the most-recent transition
receives the SMALLEST penalty.  (The claim as stated — largest penalty on
the most-recent transitions — is refuted by `c6_counterexample`.) -/
theorem c6_loss_punishment_decays_toward_recent (tr : ℚ) (st : AgentState) (d : Transition)
    (hL : st.learningFromLosses = true) (h5 : 5 ≤ st.memory.length) :
    (updateGameOutcome "defeat" tr true st).memory.length = st.memory.length ∧
    (∀ j, j < 5 →
      ((updateGameOutcome "defeat" tr true st).memory.getD (st.memory.length - 5 + j) d).r =
        (st.memory.getD (st.memory.length - 5 + j) d).r - |tr| / 100 * (5 - (j : ℚ))) ∧
    (∀ i, i < st.memory.length - 5 →
      (updateGameOutcome "defeat" tr true st).memory.getD i d = st.memory.getD i d) ∧
    (∀ j : ℕ, j < 5 → 0 ≤ |tr| / 100 * (5 - (j : ℚ))) ∧
    (∀ j : ℕ, j + 1 < 5 →
      |tr| / 100 * (5 - ((j + 1 : ℕ) : ℚ)) ≤ |tr| / 100 * (5 - (j : ℚ))) := by
  rw [updateGameOutcome_defeat_memory tr st hL]
  refine ⟨applyLossPunishment_length tr st.memory, ?_, ?_, ?_, ?_⟩
  · intro j hj
    exact applyLossPunishment_getD_r tr st.memory d h5 j hj
  · intro i hi
    exact applyLossPunishment_getD_prefix tr st.memory d h5 i hi
  · intro j hj
    have hj4 : (j : ℚ) ≤ 4 := by
      have hj' : j ≤ 4 := by omega
      exact_mod_cast hj'
    have habs : (0 : ℚ) ≤ |tr| := abs_nonneg tr
    have h100 : (0 : ℚ) ≤ |tr| / 100 := by positivity
    nlinarith
  · intro j hj
    have h100 : (0 : ℚ) ≤ |tr| / 100 := by positivity
    have hle : (5 : ℚ) - ((j + 1 : ℕ) : ℚ) ≤ 5 - (j : ℚ) := by
      push_cast
      linarith
    exact mul_le_mul_of_nonneg_left hle h100

/-- Counterexample to C6 as stated: a defeat (total reward −100, severity 1)
over a memory of five zero-reward transitions leaves rewards
[−5, −4, −3, −2, −1]: the penalty on the fourth-from-last transition (2) is
strictly larger than the penalty on the most-recent one (1), so the penalty
magnitude is DECREASING toward the most recent transition, not
non-decreasing. -/
theorem c6_counterexample :
    ((updateGameOutcome "defeat" (-100) true agent5).memory.map Transition.r) =
      [-5, -4, -3, -2, -1] ∧
    ¬(zeroTransition.r -
        ((updateGameOutcome "defeat" (-100) true agent5).memory.getD 3 zeroTransition).r ≤
      zeroTransition.r -
        ((updateGameOutcome "defeat" (-100) true agent5).memory.getD 4 zeroTransition).r) := by
  have hmem : (updateGameOutcome "defeat" (-100) true agent5).memory =
      applyLossPunishment (-100) agent5.memory :=
    updateGameOutcome_defeat_memory (-100) agent5 rfl
  rw [hmem]
  constructor <;>
    norm_num [applyLossPunishment, punishIdx, agent5, mem5, zeroTransition, List.getD]

/-- Witness for C6: the amended theorem at severity 1 (total reward −100), a
five-transition memory, and the most recent transition j = 4, which loses
exactly severity × 1 = 1. -/
theorem c6_loss_punishment_decays_toward_recent_witness :
    agent5.learningFromLosses = true ∧ 5 ≤ agent5.memory.length ∧ (4 : ℕ) < 5 ∧
    ((updateGameOutcome "defeat" (-100) true agent5).memory.getD
        (agent5.memory.length - 5 + 4) zeroTransition).r =
      (agent5.memory.getD (agent5.memory.length - 5 + 4) zeroTransition).r -
        |(-100 : ℚ)| / 100 * (5 - ((4 : ℕ) : ℚ)) :=
  ⟨rfl, by norm_num [agent5, mem5], by norm_num,
    (c6_loss_punishment_decays_toward_recent (-100) agent5 zeroTransition rfl
      (by norm_num [agent5, mem5])).2.1 4 (by norm_num)⟩


theorem length_flatMap_const {α β : Type} (l : List α) (f : α → List β) (L : ℕ)
    (h : ∀ a ∈ l, (f a).length = L) : (l.flatMap f).length = l.length * L := by
  induction l with
  | nil => simp
  | cons a t ih =>
    simp only [List.flatMap_cons, List.length_append, List.length_cons]
    rw [h a (by simp), ih fun b hb => h b (by simp [hb])]
    ring

theorem flatMap_range_getElem? {β : Type} :
    ∀ (i : ℕ) (n : ℕ) (f : ℕ → List β) (L : ℕ),
      (∀ k, (f k).length = L) → i < n → ∀ j, j < L →
      ((List.range n).flatMap f)[i * L + j]? = (f i)[j]? := by
  intro i
  induction i with
  | zero =>
    intro n f L hL hn j hj
    obtain ⟨m, rfl⟩ : ∃ m, n = m + 1 := ⟨n - 1, by omega⟩
    rw [List.range_succ_eq_map, List.flatMap_cons, Nat.zero_mul, Nat.zero_add]
    exact List.getElem?_append_left (by rw [hL 0]; exact hj)
  | succ i ih =>
    intro n f L hL hn j hj
    obtain ⟨m, rfl⟩ : ∃ m, n = m + 1 := ⟨n - 1, by omega⟩
    rw [List.range_succ_eq_map, List.flatMap_cons,
      List.getElem?_append_right (by rw [hL 0, Nat.succ_mul]; omega)]
    have hidx : (i + 1) * L + j - (f 0).length = i * L + j := by
      rw [hL 0, Nat.succ_mul]
      omega
    rw [hidx, List.flatMap_map]
    exact ih m (fun a => f (Nat.succ a)) L (fun k => hL (k + 1)) (by omega) j hj

theorem mainActions_inner_length (gw gh : ℕ) :
    ∀ k : ℕ, ((List.range gw).flatMap fun (x : ℕ) => (List.range gh).map fun (y : ℕ) =>
      ((k : ℤ), (x : ℚ) / ((gw : ℚ) - 1), (y : ℚ) / ((gh : ℚ) - 1))).length = gw * gh := by
  intro k
  rw [length_flatMap_const _ _ gh fun b hb => by simp]
  simp

theorem mainActions_length (gw gh : ℕ) : (mainActions gw gh).length = 4 * gw * gh := by
  unfold mainActions
  rw [length_flatMap_const _ _ (gw * gh) fun a ha => mainActions_inner_length gw gh a]
  simp
  ring

theorem mainActions_getElem? (gw gh c x y : ℕ) (hc : c < 4) (hx : x < gw) (hy : y < gh) :
    (mainActions gw gh)[c * (gw * gh) + x * gh + y]? =
      some ((c : ℤ), (x : ℚ) / ((gw : ℚ) - 1), (y : ℚ) / ((gh : ℚ) - 1)) := by
  have hb : x * gh + y < gw * gh := by
    have h2 : x * gh + y < x * gh + gh := Nat.add_lt_add_left hy _
    have h3 : x * gh + gh = (x + 1) * gh := (Nat.succ_mul x gh).symm
    have h4 : (x + 1) * gh ≤ gw * gh := mul_le_mul_right' hx _
    exact lt_of_lt_of_le (h3 ▸ h2) h4
  unfold mainActions
  rw [Nat.add_assoc,
    flatMap_range_getElem? c 4 _ (gw * gh) (mainActions_inner_length gw gh) hc
      (x * gh + y) hb,
    flatMap_range_getElem? x gw _ gh (fun k => by simp) hx y hy]
  simp [List.getElem?_range hy]

theorem availableActions_getElem?_encode (gw gh c x y : ℕ)
    (hc : c < 4) (hx : x < gw) (hy : y < gh) :
    (availableActions gw gh)[c * (gw * gh) + x * gh + y]? =
      some ((c : ℤ), (x : ℚ) / ((gw : ℚ) - 1), (y : ℚ) / ((gh : ℚ) - 1)) := by
  have hb : x * gh + y < gw * gh := by
    have h2 : x * gh + y < x * gh + gh := Nat.add_lt_add_left hy _
    have h3 : x * gh + gh = (x + 1) * gh := (Nat.succ_mul x gh).symm
    have h4 : (x + 1) * gh ≤ gw * gh := mul_le_mul_right' hx _
    exact lt_of_lt_of_le (h3 ▸ h2) h4
  have hidx : c * (gw * gh) + x * gh + y < 4 * (gw * gh) := by
    have h2 : c * (gw * gh) + (x * gh + y) < c * (gw * gh) + gw * gh :=
      Nat.add_lt_add_left hb _
    have h3 : c * (gw * gh) + gw * gh = (c + 1) * (gw * gh) := (Nat.succ_mul c _).symm
    have h4 : (c + 1) * (gw * gh) ≤ 4 * (gw * gh) := mul_le_mul_right' hc _
    calc c * (gw * gh) + x * gh + y = c * (gw * gh) + (x * gh + y) := by omega
    _ < (c + 1) * (gw * gh) := h3 ▸ h2
    _ ≤ 4 * (gw * gh) := h4
  unfold availableActions
  rw [List.getElem?_append_left (by rw [mainActions_length, Nat.mul_assoc]; exact hidx)]
  exact mainActions_getElem? gw gh c x y hc hx hy

theorem availableActions_length (gw gh : ℕ) :
    (availableActions gw gh).length = 4 * gw * gh + 1 := by
  unfold availableActions
  rw [List.length_append, mainActions_length]
  rfl

theorem availableActions_getElem?_last (gw gh : ℕ) :
    (availableActions gw gh)[noopIndex gw gh]? = some (-1, 0, 0) := by
  unfold availableActions noopIndex
  rw [List.getElem?_append_right (by rw [mainActions_length]), mainActions_length]
  simp

theorem availableActions_getD_last (gw gh : ℕ) :
    (availableActions gw gh).getD (noopIndex gw gh) (-1, 0, 0) = (-1, 0, 0) := by
  rw [List.getD_eq_getElem?_getD, availableActions_getElem?_last]
  rfl


theorem mainActions_nodup (gw gh : ℕ) (hgw : 2 ≤ gw) (hgh : 2 ≤ gh) :
    (mainActions gw gh).Nodup := by
  have hgwQ : ((gw : ℚ) - 1) ≠ 0 := by
    have h2 : (2 : ℚ) ≤ (gw : ℚ) := by exact_mod_cast hgw
    intro h
    linarith
  have hghQ : ((gh : ℚ) - 1) ≠ 0 := by
    have h2 : (2 : ℚ) ≤ (gh : ℚ) := by exact_mod_cast hgh
    intro h
    linarith
  have hdivInj : ∀ d : ℚ, d ≠ 0 → ∀ a b : ℕ, (a : ℚ) / d = (b : ℚ) / d → a = b := by
    intro d hd a b hab
    field_simp at hab
    exact_mod_cast hab
  unfold mainActions
  rw [List.nodup_flatMap]
  constructor
  · intro c hc
    rw [List.nodup_flatMap]
    constructor
    · intro x hx
      refine List.Nodup.map ?_ (List.nodup_range gh)
      intro y1 y2 h
      have h3 := congrArg (fun t => t.2.2) h
      simp only at h3
      exact hdivInj _ hghQ y1 y2 h3
    · refine (List.pairwise_lt_range gw).imp ?_
      intro x1 x2 hx12 t ht1 ht2
      simp only [List.mem_map] at ht1 ht2
      obtain ⟨y1, hy1, rfl⟩ := ht1
      obtain ⟨y2, hy2, ht2⟩ := ht2
      have h3 := congrArg (fun t => t.2.1) ht2
      simp only at h3
      have := hdivInj _ hgwQ x2 x1 h3
      omega
  · refine (List.pairwise_lt_range 4).imp ?_
    intro c1 c2 hc12 t ht1 ht2
    simp only [List.mem_flatMap, List.mem_map] at ht1 ht2
    obtain ⟨x1, hx1, y1, hy1, rfl⟩ := ht1
    obtain ⟨x2, hx2, y2, hy2, ht2⟩ := ht2
    have h3 := congrArg (fun t => t.1) ht2
    simp only at h3
    have hcc : c2 = c1 := by exact_mod_cast h3
    omega

/-- C4: for grid dimensions at least 2, `get_available_actions` produces
exactly `4 * grid_width * grid_height + 1` actions with no duplicate tuples,
in card-major order — the action at index `card * (gw * gh) + x * gh + y` is
`(card, x / (gw - 1), y / (gh - 1))`, so indexing is a left inverse of the
enumeration — and the action at the last index `4 * gw * gh` is the no-op
tuple `(-1, 0, 0)`. -/
theorem c4_action_space (gw gh : ℕ) (hgw : 2 ≤ gw) (hgh : 2 ≤ gh) :
    (availableActions gw gh).length = 4 * gw * gh + 1 ∧
    (availableActions gw gh).Nodup ∧
    (∀ c x y : ℕ, c < 4 → x < gw → y < gh →
      (availableActions gw gh)[c * (gw * gh) + x * gh + y]? =
        some ((c : ℤ), (x : ℚ) / ((gw : ℚ) - 1), (y : ℚ) / ((gh : ℚ) - 1))) ∧
    (availableActions gw gh)[4 * gw * gh]? = some (-1, 0, 0) := by
  refine ⟨availableActions_length gw gh, ?_, ?_, availableActions_getElem?_last gw gh⟩
  · unfold availableActions
    rw [List.nodup_append]
    refine ⟨mainActions_nodup gw gh hgw hgh, List.nodup_singleton _, ?_⟩
    intro t ht hmem
    simp only [List.mem_singleton] at hmem
    subst hmem
    unfold mainActions at ht
    simp only [List.mem_flatMap, List.mem_map] at ht
    obtain ⟨c, hc, x, hx, y, hy, hEq⟩ := ht
    have h1 := congrArg (fun t => t.1) hEq
    simp only at h1
    have h2 : (0 : ℤ) ≤ (c : ℤ) := Int.natCast_nonneg c
    omega
  · intro c x y hc hx hy
    exact availableActions_getElem?_encode gw gh c x y hc hx hy

/-- Witness for C4: the default 18 × 28 grid. -/
theorem c4_action_space_witness :
    ((2 : ℕ) ≤ 18 ∧ (2 : ℕ) ≤ 28) ∧
    ((availableActions 18 28).length = 4 * 18 * 28 + 1 ∧
     (availableActions 18 28).Nodup ∧
     (∀ c x y : ℕ, c < 4 → x < 18 → y < 28 →
       (availableActions 18 28)[c * (18 * 28) + x * 28 + y]? =
         some ((c : ℤ), (x : ℚ) / (((18 : ℕ) : ℚ) - 1), (y : ℚ) / (((28 : ℕ) : ℚ) - 1))) ∧
     (availableActions 18 28)[4 * 18 * 28]? = some (-1, 0, 0)) :=
  ⟨⟨by norm_num, by norm_num⟩, c4_action_space 18 28 (by norm_num) (by norm_num)⟩


theorem shouldSaveElixir_tensor_error (elixir : ℚ) (l : List ℚ) (ally : PyVec)
    (hne : ¬l.length = 1) :
    shouldSaveElixir elixir (PyVec.tensor l) ally =
      Except.error "Boolean value of Tensor is ambiguous" := by
  unfold shouldSaveElixir urgentDefenseNeeded enemyWillDieSoon pyTruth
  simp only [if_neg hne]
  by_cases hc : elixir < 3
  · rw [if_pos hc]
  · rw [if_neg hc]

/-- Counterexample to C10 as stated: a state with 2 elixir and no detections
(the save-elixir scenario: elixir below 3, no enemy coordinate above the
urgency threshold) and ε = 0.  `act` converts the state to a torch tensor, so
`_apply_smart_logic`'s `if not enemy_positions:` raises on the 20-element
enemy slice; the `except` swallows it and `act` returns the q-value argmax
(here index 1), never the save-elixir action 0. -/
theorem c10_counterexample :
    stElixir2.length = 41 ∧
    stElixir2.getD 0 0 * 10 = 2 ∧
    (∀ p ∈ oddSlots (stElixir2.drop 21), p ≤ 500) ∧
    act 0 0 7 stElixir2 qPref1 true = 1 ∧
    ¬act 0 0 7 stElixir2 qPref1 true = 0 := by
  have hsmart : applySmartLogic stElixir2 qPref1 = none := by
    norm_num [applySmartLogic, applySmartLogicBody, shouldSaveElixir,
      urgentDefenseNeeded, pyTruth, stElixir2, List.getD]
  have hact : act 0 0 7 stElixir2 qPref1 true = 1 := by
    unfold act
    rw [if_neg (by norm_num : ¬(0 : ℚ) < 0)]
    simp only [if_true, hsmart]
    norm_num [argmaxIdx, argmaxAux, qPref1]
  refine ⟨by norm_num [stElixir2], by norm_num [stElixir2, List.getD], ?_, hact,
    by rw [hact]; norm_num⟩
  intro p hp
  simp [stElixir2, oddSlots, everyOther] at hp
  subst hp
  norm_num

/-- C10 (corrected): the save-elixir override is unreachable.  For every
full-length (41-entry) state — even one satisfying the save-elixir condition
(elixir below 3) — `_apply_smart_logic` raises internally: `act` has turned
the state into a torch tensor, so `if not enemy_positions:` on the 20-element
enemy slice is a `RuntimeError`; the `except` returns `None` and `act` with
ε = 0 returns the q-value argmax, never the intended "no action" index 0.
(Had the override returned 0, that index decodes to playing card slot 0 at
grid cell (0, 0), not the no-op, which sits at the last index.) -/
theorem c10_save_elixir_override_unreachable (state q : List ℚ) (rv : ℚ) (ra : ℕ)
    (hlen : state.length = 41)
    (hel : state.getD 0 0 * 10 < 3)
    (hrv : 0 ≤ rv) :
    applySmartLogic state q = none ∧
    act 0 rv ra state q true = argmaxIdx q ∧
    (availableActions 18 28)[0]? = some ((0 : ℤ), 0, 0) ∧
    (availableActions 18 28)[noopIndex 18 28]? = some (-1, 0, 0) ∧
    ((0 : ℤ), (0 : ℚ), (0 : ℚ)) ≠ ((-1 : ℤ), (0 : ℚ), (0 : ℚ)) := by
  have h0len : 0 < state.length := by omega
  have h21len : 21 < state.length := by omega
  have hdrop : (state.drop 21).length = 20 := by simp [hlen]
  have hsmart : applySmartLogic state q = none := by
    simp [applySmartLogic, applySmartLogicBody, h0len, h21len, hdrop,
      shouldSaveElixir_tensor_error]
  have hact : act 0 rv ra state q true = argmaxIdx q := by
    unfold act
    rw [if_neg (not_lt.mpr hrv)]
    simp [hsmart]
  refine ⟨hsmart, hact, ?_, availableActions_getElem?_last 18 28,
    by norm_num [Prod.ext_iff]⟩
  have h := availableActions_getElem?_encode 18 28 0 0 0
    (by norm_num) (by norm_num) (by norm_num)
  simpa using h

/-- Witness for C10: the corrected theorem at a 2-elixir no-detection state
with q-values preferring index 1. -/
theorem c10_save_elixir_override_unreachable_witness :
    stElixir2.length = 41 ∧ stElixir2.getD 0 0 * 10 < 3 ∧ (0 : ℚ) ≤ 0 ∧
    applySmartLogic stElixir2 qPref1 = none ∧
    act 0 0 7 stElixir2 qPref1 true = argmaxIdx qPref1 :=
  ⟨by norm_num [stElixir2], by norm_num [stElixir2, List.getD], le_refl 0,
   (c10_save_elixir_override_unreachable stElixir2 qPref1 0 7
     (by norm_num [stElixir2]) (by norm_num [stElixir2, List.getD]) (le_refl 0)).1,
   (c10_save_elixir_override_unreachable stElixir2 qPref1 0 7
     (by norm_num [stElixir2]) (by norm_num [stElixir2, List.getD]) (le_refl 0)).2.1⟩

/-- Counterexample to C1 as stated: with `game_over_flag` already set to
victory but the screen detector reporting the home screen, `step` takes the
home-screen early return: it comes back with reward 5 and done = false — no
terminal bonus, no episode end — because the home-screen branch runs before
the `game_over_flag` check. -/
theorem c1_counterexample :
    c1Obs.gameOver = some GameResult.victory ∧
    (step macCfg 18 28 0 c1Obs e0).done = false ∧
    (step macCfg 18 28 0 c1Obs e0).reward = 5 := by
  refine ⟨rfl, ?_, ?_⟩ <;> simp [step, c1Obs, e0]

/-- C1 (amended): if the watcher has flagged victory/defeat before the call,
and the detected screen state is not the home screen, and no new trophy-road
popup is detected (those two branches return early, before the terminal
check), then `step` returns done = true with the ±100 terminal bonus added to
the state reward, without executing the requested action. -/
theorem c1_terminal_priority (cfg : ScreenCfg) (gw gh a : ℕ) (o : Obs) (e : EnvMut)
    (res : GameResult)
    (hflag : o.gameOver = some res)
    (hscreen : o.screen ≠ ScreenState.homeScreen)
    (htrophy : e.trophyRoadDetected = true ∨ o.trophyRoadVisible = false) :
    (step cfg gw gh a o e).done = true ∧
    (step cfg gw gh a o e).reward =
      computeReward o.state e.prevElixir e.prevEnemyPresence + terminalBonus res ∧
    (step cfg gw gh a o e).played = none := by
  obtain ⟨scr, tv, mv, go, cards, st, towers⟩ := o
  obtain ⟨mo, td, ib, oh, pe, pp, pt, cc⟩ := e
  simp only at hflag hscreen htrophy
  subst hflag
  cases scr
  · exact absurd rfl hscreen
  all_goals
    rcases htrophy with h | h <;> subst h <;>
      simp [step, apply_ite EnvMut.prevElixir, apply_ite EnvMut.prevEnemyPresence,
        ite_self]

/-- Witness for C1: victory flagged on an unclassified screen with no
trophy-road popup. -/
theorem c1_terminal_priority_witness :
    c1ObsB.gameOver = some GameResult.victory ∧
    c1ObsB.screen ≠ ScreenState.homeScreen ∧
    c1ObsB.trophyRoadVisible = false ∧
    (step macCfg 18 28 0 c1ObsB e0).done = true ∧
    (step macCfg 18 28 0 c1ObsB e0).reward =
      computeReward c1ObsB.state e0.prevElixir e0.prevEnemyPresence +
        terminalBonus GameResult.victory :=
  ⟨rfl, by decide, rfl,
   (c1_terminal_priority macCfg 18 28 0 c1ObsB e0 GameResult.victory rfl (by decide)
     (Or.inr rfl)).1,
   (c1_terminal_priority macCfg 18 28 0 c1ObsB e0 GameResult.victory rfl (by decide)
     (Or.inr rfl)).2.1⟩


theorem stepMain_invalid_eq (cfg : ScreenCfg) (gw gh b : ℕ) (o : Obs)
    (h : ¬(((availableActions gw gh).getD b (-1, 0, 0)).1 ≠ -1 ∧
        ((availableActions gw gh).getD b (-1, 0, 0)).1 < (o.cards.length : ℤ))) :
    ∀ e3 : EnvMut, stepMain cfg gw gh b o e3 = stepMain cfg gw gh (noopIndex gw gh) o e3 := by
  intro e3
  have hnoop := availableActions_getD_last gw gh
  simp only [stepMain, hnoop]
  rw [if_neg (fun hh => h hh.1), if_neg h]
  simp

theorem stepMain_invalid_played (cfg : ScreenCfg) (gw gh b : ℕ) (o : Obs)
    (h : ¬(((availableActions gw gh).getD b (-1, 0, 0)).1 ≠ -1 ∧
        ((availableActions gw gh).getD b (-1, 0, 0)).1 < (o.cards.length : ℤ))) :
    ∀ e3 : EnvMut, (stepMain cfg gw gh b o e3).played = none := by
  intro e3
  simp only [stepMain]
  rw [if_neg h]

theorem step_index_congr (cfg : ScreenCfg) (gw gh b1 b2 : ℕ) (o : Obs) (e : EnvMut)
    (H : ∀ e3 : EnvMut, stepMain cfg gw gh b1 o e3 = stepMain cfg gw gh b2 o e3) :
    step cfg gw gh b1 o e = step cfg gw gh b2 o e := by
  obtain ⟨scr, tv, mv, go, cards, st, towers⟩ := o
  obtain ⟨mo, td, ib, oh, pe, pp, pt, cc⟩ := e
  cases scr <;> cases td <;> cases tv <;> cases mo <;> cases mv <;>
    rcases go with _ | res <;>
    simp [step, H]

theorem step_played_none_of (cfg : ScreenCfg) (gw gh b1 : ℕ) (o : Obs) (e : EnvMut)
    (H1 : ∀ e3 : EnvMut, (stepMain cfg gw gh b1 o e3).played = none)
    (H2 : ∀ e3 : EnvMut, (stepMain cfg gw gh (noopIndex gw gh) o e3).played = none) :
    (step cfg gw gh b1 o e).played = none := by
  obtain ⟨scr, tv, mv, go, cards, st, towers⟩ := o
  obtain ⟨mo, td, ib, oh, pe, pp, pt, cc⟩ := e
  cases scr <;> cases td <;> cases tv <;> cases mo <;> cases mv <;>
    rcases go with _ | res <;>
    simp [step, H1, H2, apply_ite StepResult.played]

/-- C3 (amended): an action whose card slot is not −1 but is ≥ the number of
detected hand cards behaves exactly like the explicit no-op action: `step`
returns the very same result, and plays no card.  In particular the reward
is the normal shaped reward (state reward plus princess-tower bonus, no
spell penalty) — the same as a no-op — but not necessarily 0
(see `c3_counterexample`). -/
theorem c3_invalid_slot_is_noop (cfg : ScreenCfg) (gw gh a : ℕ) (o : Obs) (e : EnvMut)
    (hcard : ((availableActions gw gh).getD a (-1, 0, 0)).1 ≠ -1)
    (hge : (o.cards.length : ℤ) ≤ ((availableActions gw gh).getD a (-1, 0, 0)).1) :
    step cfg gw gh a o e = step cfg gw gh (noopIndex gw gh) o e ∧
    (step cfg gw gh a o e).played = none := by
  have hplays : ¬(((availableActions gw gh).getD a (-1, 0, 0)).1 ≠ -1 ∧
      ((availableActions gw gh).getD a (-1, 0, 0)).1 < (o.cards.length : ℤ)) :=
    fun h => absurd h.2 (not_lt.mpr hge)
  have hnoopPlays : ¬(((availableActions gw gh).getD (noopIndex gw gh) (-1, 0, 0)).1 ≠ -1 ∧
      ((availableActions gw gh).getD (noopIndex gw gh) (-1, 0, 0)).1 <
        (o.cards.length : ℤ)) := by
    rw [availableActions_getD_last]
    simp
  exact ⟨step_index_congr cfg gw gh a (noopIndex gw gh) o e
      (stepMain_invalid_eq cfg gw gh a o hplays),
    step_played_none_of cfg gw gh a o e
      (stepMain_invalid_played cfg gw gh a o hplays)
      (stepMain_invalid_played cfg gw gh (noopIndex gw gh) o hnoopPlays)⟩


theorem availActions22_at4 : (availableActions 2 2)[4]? = some ((1 : ℤ), 0, 0) := by
  have h := availableActions_getElem?_encode 2 2 1 0 0 (by norm_num) (by norm_num) (by norm_num)
  norm_num at h
  exact h

theorem availActions22_at4D :
    (availableActions 2 2).getD 4 (-1, 0, 0) = ((1 : ℤ), 0, 0) := by
  rw [List.getD_eq_getElem?_getD, availActions22_at4]
  rfl

/-- Counterexample to C3 as stated: on a 2 × 2 grid, action index 4 selects
card slot 1 while only one hand card is detected.  No card is played and no
exception occurs, but the returned reward is the shaped state reward
−1/5 — not 0 (one enemy at normalised y = 2/5 contributes −(2/5)/2). -/
theorem c3_counterexample :
    ((availableActions 2 2).getD 4 (-1, 0, 0)).1 = 1 ∧
    c3Obs.cards.length = 1 ∧
    (step macCfg 2 2 4 c3Obs e0).played = none ∧
    (step macCfg 2 2 4 c3Obs e0).done = false ∧
    (step macCfg 2 2 4 c3Obs e0).reward = -(1 / 5) ∧
    (step macCfg 2 2 4 c3Obs e0).reward ≠ 0 := by
  have hr : (step macCfg 2 2 4 c3Obs e0).reward = -(1 / 5) := by
    simp [step, stepMain, c3Obs, e0, availActions22_at4]
    norm_num [computeReward, stateElixir, enemyPresence, closeEnemyCount, enemyYs,
      enemyCoords, oddSlots, everyOther, stY04]
  refine ⟨by rw [availActions22_at4D], rfl, ?_, ?_, hr, ?_⟩
  · simp [step, stepMain, c3Obs, e0, availActions22_at4]
  · simp [step, stepMain, c3Obs, e0]
  · rw [hr]
    norm_num

/-- Witness for C3: the amended theorem at the counterexample's input. -/
theorem c3_invalid_slot_is_noop_witness :
    ((availableActions 2 2).getD 4 (-1, 0, 0)).1 ≠ -1 ∧
    (c3Obs.cards.length : ℤ) ≤ ((availableActions 2 2).getD 4 (-1, 0, 0)).1 ∧
    step macCfg 2 2 4 c3Obs e0 = step macCfg 2 2 (noopIndex 2 2) c3Obs e0 := by
  have h1 : ((availableActions 2 2).getD 4 (-1, 0, 0)).1 ≠ -1 := by
    rw [availActions22_at4D]
    norm_num
  have h2 : (c3Obs.cards.length : ℤ) ≤ ((availableActions 2 2).getD 4 (-1, 0, 0)).1 := by
    rw [availActions22_at4D]
    norm_num [c3Obs]
  exact ⟨h1, h2, (c3_invalid_slot_is_noop macCfg 2 2 4 c3Obs e0 h1 h2).1⟩


theorem truncInt_nonneg (q : ℚ) (h : 0 ≤ q) : 0 ≤ truncInt q := by
  unfold truncInt
  rw [if_pos h]
  exact Int.floor_nonneg.mpr h

theorem foundEnemy_always_false (cfg : ScreenCfg) (s : List ℚ) (x y : ℤ)
    (hW : 0 ≤ cfg.WIDTH)
    (hTL : cfg.WIDTH + 100 ≤ x)
    (hcoords : ∀ u ∈ pairsOf (enemyCoords s), 0 ≤ u.1 ∧ u.1 ≤ 1) :
    foundEnemyNearClick cfg s x y = false := by
  unfold foundEnemyNearClick
  rw [List.any_eq_false]
  intro p hp
  simp only [enemyAreaPixels, List.mem_map, List.mem_filter] at hp
  obtain ⟨u, ⟨hu, hu0⟩, rfl⟩ := hp
  have hx0 := (hcoords u hu).1
  have hx1 := (hcoords u hu).2
  have hWQ : (0 : ℚ) ≤ (cfg.WIDTH : ℚ) := by exact_mod_cast hW
  have h1 : (0 : ℚ) ≤ u.1 * (cfg.WIDTH : ℚ) := mul_nonneg hx0 hWQ
  have h2 : u.1 * (cfg.WIDTH : ℚ) ≤ (cfg.WIDTH : ℚ) := mul_le_of_le_one_left hWQ hx1
  have hp1 : 0 ≤ truncInt (u.1 * (cfg.WIDTH : ℚ)) := truncInt_nonneg _ h1
  have hp2 : truncInt (u.1 * (cfg.WIDTH : ℚ)) ≤ cfg.WIDTH := by
    unfold truncInt
    rw [if_pos h1]
    calc ⌊u.1 * (cfg.WIDTH : ℚ)⌋ ≤ ⌊(cfg.WIDTH : ℚ)⌋ := Int.floor_le_floor h2
    _ = cfg.WIDTH := Int.floor_intCast cfg.WIDTH
  have hdx : truncInt (u.1 * (cfg.WIDTH : ℚ)) - x ≤ -100 := by omega
  have hsq : (100 : ℤ) ^ 2 ≤ (truncInt (u.1 * (cfg.WIDTH : ℚ)) - x) ^ 2 := by
    nlinarith [hdx, sq_nonneg (truncInt (u.1 * (cfg.WIDTH : ℚ)) - x + 100)]
  have hy2 : (0 : ℤ) ≤ (truncInt (u.2 * (cfg.HEIGHT : ℚ)) - y) ^ 2 := sq_nonneg _
  simp only [decide_eq_true_eq, not_lt]
  linarith


/-- C8 (code bug): the spell-waste check compares the screen-absolute click
point (`int(frac * size) + TOP_LEFT`) against area-relative enemy pixels
(`int(coord * size)`, no `TOP_LEFT` offset).  On both OS presets
`TOP_LEFT_X ≥ WIDTH + 100`, so `found_enemy` is false for every
encoder-produced state and every click — the −5 penalty is applied on every
spell play.  Concretely: with one enemy detected exactly at the click point
(screen pixel (1013, 120)), `step` plays Zap there and the reward still
includes the −5 spell-waste penalty. -/
theorem c8_spell_penalty_frame_mismatch :
    (∀ cfg : ScreenCfg, cfg = macCfg ∨ cfg = winCfg →
      ∀ (s : List ℚ) (xfrac yfrac : ℚ), 0 ≤ xfrac →
        (∀ u ∈ pairsOf (enemyCoords s), 0 ≤ u.1 ∧ u.1 ≤ 1) →
        foundEnemyNearClick cfg s
          (truncInt (xfrac * (cfg.WIDTH : ℚ)) + cfg.TOP_LEFT_X)
          (truncInt (yfrac * (cfg.HEIGHT : ℚ)) + cfg.TOP_LEFT_Y) = false) ∧
    enemyScreenPixels macCfg stXYeps = [(1013, 120)] ∧
    (step macCfg 3 3 0 c8Obs e0).played = some ("Zap", 1013, 120) ∧
    (step macCfg 3 3 0 c8Obs e0).reward = computeReward stXYeps none none + (-5) ∧
    computeReward stXYeps none none = -(1 / 2000) := by
  have hcoordsEps : ∀ u ∈ pairsOf (enemyCoords stXYeps), 0 ≤ u.1 ∧ u.1 ≤ 1 := by
    intro u hu
    simp [pairsOf, enemyCoords, stXYeps] at hu
    rcases hu with h | h <;> subst h <;> norm_num
  have hfound : foundEnemyNearClick macCfg stXYeps 1013 120 = false := by
    exact foundEnemy_always_false macCfg stXYeps 1013 120 (by norm_num [macCfg])
      (by norm_num [macCfg]) hcoordsEps
  have havail : (availableActions 3 3)[0]? = some ((0 : ℤ), 0, 0) := by
    have h := availableActions_getElem?_encode 3 3 0 0 0 (by norm_num) (by norm_num)
      (by norm_num)
    simpa using h
  refine ⟨?_, ?_, ?_, ?_, ?_⟩
  · intro cfg hcfg s xf yf hxf hc
    have hW : 0 ≤ cfg.WIDTH := by rcases hcfg with rfl | rfl <;> norm_num [macCfg, winCfg]
    have h0 : 0 ≤ truncInt (xf * (cfg.WIDTH : ℚ)) :=
      truncInt_nonneg _ (mul_nonneg hxf (by exact_mod_cast hW))
    refine foundEnemy_always_false cfg s _ _ hW ?_ hc
    rcases hcfg with rfl | rfl <;>
      (norm_num [macCfg, winCfg] at h0 ⊢; omega)
  · norm_num [enemyScreenPixels, enemyAreaPixels, pairsOf, enemyCoords, stXYeps, macCfg,
      truncInt]
  · have hTLX : macCfg.TOP_LEFT_X = 1013 := rfl
    have hTLY : macCfg.TOP_LEFT_Y = 120 := rfl
    simp [step, stepMain, c8Obs, e0, havail, truncInt, hTLX, hTLY, hfound, SPELL_CARDS]
  · have hTLX : macCfg.TOP_LEFT_X = 1013 := rfl
    have hTLY : macCfg.TOP_LEFT_Y = 120 := rfl
    simp [step, stepMain, c8Obs, e0, havail, truncInt, hTLX, hTLY, hfound, SPELL_CARDS]
  · norm_num [computeReward, stateElixir, enemyPresence, closeEnemyCount, enemyYs,
      enemyCoords, oddSlots, everyOther, stXYeps]

/-- Witness for C8: the universally quantified part applied to the macOS
preset, the concrete enemy state and click fraction 0. -/
theorem c8_spell_penalty_frame_mismatch_witness :
    (macCfg = macCfg ∨ macCfg = winCfg) ∧ (0 : ℚ) ≤ 0 ∧
    foundEnemyNearClick macCfg stXYeps
      (truncInt (0 * (macCfg.WIDTH : ℚ)) + macCfg.TOP_LEFT_X)
      (truncInt (0 * (macCfg.HEIGHT : ℚ)) + macCfg.TOP_LEFT_Y) = false :=
  ⟨Or.inl rfl, le_refl 0,
   c8_spell_penalty_frame_mismatch.1 macCfg (Or.inl rfl) stXYeps 0 0 (le_refl 0) (by
     intro u hu
     simp [pairsOf, enemyCoords, stXYeps] at hu
     rcases hu with h | h <;> subst h <;> norm_num)⟩

end ClashBot
